import Mathlib

/-!
Verification development for the `zackwwu/http-client-go` resilient HTTP
client (files `client.go`, `options.go`, plus the body/backoff utility file).

The Go code is shallowly embedded: durations are `Nat` (nanoseconds),
`error` values are an inductive `Err` (with `Err.wrap` for `errors.Wrap`),
and pointer-valued fields (`*tracingOptions`) are indices into an explicit
`Heap`, so that the in-place mutation performed by `WithTracingOptions` /
`WithSpanCarrierInjected` through a shared pointer is modelled faithfully.

The retry loop itself lives in the external dependency
`github.com/kamilsk/retry/v5` whose source is not part of this repository;
`retryDo` below is modelled from the spec's AttemptLoop state machine
(spec sections 4.4, 6 and 7): the first attempt is made unconditionally,
after each failed attempt the strategy sequence is consulted with the
cumulative attempt count and the failure error, strategies are pure
go/no-go deciders (delay is invisible here), and overall-context
cancellation is terminal.  Transport results, body-rewind results and
cancellation observations are supplied by an oracle `Env`, indexed by the
loop's cumulative attempt counter.
-/

namespace HttpClient

/-- Go `error` values: base errors (identified by a code), the overall
context's cancellation error, and `errors.Wrap msg e`. -/
inductive Err where
  | base (code : Nat)
  | canceled
  | wrap (msg : String) (e : Err)
deriving DecidableEq, Repr

/-- A raw `*http.Response` as returned by the underlying transport:
its status code and an identifier for its body handle. -/
structure RawResp where
  statusCode : Nat
  bodyId : Nat
deriving DecidableEq, Repr

/-- The response held by the client's `resp` variable: the raw response,
whether its body was wrapped in `responseBodyReadCloser` (client.go lines
171-174), and whether that wrapper carries a cancellation function. -/
structure Resp where
  raw : RawResp
  wrapped : Bool
  hasCancel : Bool
deriving DecidableEq, Repr

/-- Result of one `c.client.Do(aReq)` transport invocation.  Per the
`http.Client.Do` contract a nil error comes with a non-nil response; a
non-nil error may exceptionally come with a (discarded) non-nil response
(the `CheckRedirect` case), which `fail` carries as `leaked`. -/
inductive TransportOutcome where
  | ok (r : RawResp)
  | fail (e : Err) (leaked : Option RawResp)
deriving DecidableEq, Repr

/-- A retry strategy (`strategy.Strategy` of kamilsk/retry/v5): it sees
the cumulative attempt count and the most recent error and answers
whether another attempt may be made.  `Limit` is `strategy.Limit`;
`BackoffWithJitter` is the delay-only strategy built by
`StandardBackOffStrategy` (it always permits, after sleeping; the random
jitter generator and its float64 deviation are timing details with no
go/no-go influence and are abstracted away, only the exponential factor
is kept); `Custom` stands for an arbitrary caller-supplied strategy. -/
inductive Strategy where
  | Limit (n : Nat)
  | BackoffWithJitter (expFactor : Nat)
  | Custom (f : Nat → Option Err → Bool)

/-- Decision of a single strategy: `strategy.Limit n` permits while the
attempt count is below `n`; the backoff strategy always permits. -/
def Strategy.eval : Strategy → Nat → Option Err → Bool
  | .Limit n, attempt, _ => attempt < n
  | .BackoffWithJitter _, _, _ => true
  | .Custom f, attempt, e => f attempt e

/-- `StandardBackOffStrategy` (utility file): an exponential back off
with normal-distribution jitter strategy. -/
def StandardBackOffStrategy (expFactor : Nat) : Strategy :=
  Strategy.BackoffWithJitter expFactor

/-- `retryPolicy` (options.go): a request timeout plus the ordered
strategy sequence. -/
structure RetryPolicy where
  requestTimeout : Nat
  retryStrategies : List Strategy

/-- `tracingOptions` (options.go). `spanOptions` are opaque
`opentracing.StartSpanOption` values, identified by numbers. -/
structure TracingOptions where
  enabled : Bool
  injectCarrier : Bool
  spanOptions : List Nat
deriving DecidableEq, Repr

/-- The heap of `tracingOptions` structs; a Go `*tracingOptions` is an
index into `tracing`.  `retryPolicy` pointers need no heap because no
code path mutates a `retryPolicy` in place (they are only replaced
wholesale), so they are modelled by value. -/
structure Heap where
  tracing : List TracingOptions
deriving DecidableEq, Repr

/-- `options` (options.go): `tracingOptions` is an optional pointer
(heap index), `retryPolicy` an optional (never-mutated) value. -/
structure Options where
  operationName : String
  tracingOptions : Option Nat
  retryPolicy : Option RetryPolicy

/-- Dereference the `tracingOptions` pointer of an options struct. -/
def getTO (o : Options) (h : Heap) : Option TracingOptions :=
  o.tracingOptions.bind fun p => h.tracing[p]?

/-- Replace the struct at heap position `p` (no-op on a dangling index,
which never arises from the public constructors). -/
def Heap.update (h : Heap) (p : Nat) (f : TracingOptions → TracingOptions) : Heap :=
  match h.tracing[p]? with
  | some t => { tracing := h.tracing.set p (f t) }
  | none => h

/-- The public functional options of options.go, as an inductive: the
`Option` interface has exactly these four constructors in the source. -/
inductive ClientOption where
  | WithRetryPolicy (requestTimeout : Nat) (maxRetries : Nat) (strategies : List Strategy)
  | WithStandardRetryPolicy (requestTimeout : Nat) (maxRetries : Nat)
  | WithTracingOptions (enabled : Bool) (operationName : String) (spanOptions : List Nat)
  | WithSpanCarrierInjected

/-- `defaultReqTimeout = 5 * time.Second`, in nanoseconds. -/
def defaultReqTimeout : Nat := 5000000000

/-- `defaultMaxRetries = 10`. -/
def defaultMaxRetries : Nat := 10

/-- `stdBackOffExponentialFactor = 1 * time.Millisecond`, in nanoseconds.
(`stdBackOffJitterDeviation = 0.25` is a float64 jitter parameter with no
go/no-go influence; it is abstracted away in `Strategy`.) -/
def stdBackOffExponentialFactor : Nat := 1000000

/-- `o.apply(&opts, generator)` for each option constructor, exactly as in
options.go.  `WithTracingOptions` and `WithSpanCarrierInjected` allocate a
fresh `tracingOptions` struct when the pointer is nil and otherwise mutate
the pointed-to struct in place. -/
def applyOption : ClientOption → Options → Heap → Options × Heap
  | .WithRetryPolicy requestTimeout maxRetries strategies, o, h =>
      let pol : RetryPolicy := ⟨requestTimeout, Strategy.Limit maxRetries :: strategies⟩
      ({ o with retryPolicy := some pol }, h)
  | .WithStandardRetryPolicy requestTimeout maxRetries, o, h =>
      let pol : RetryPolicy := ⟨requestTimeout,
        [Strategy.Limit maxRetries, StandardBackOffStrategy stdBackOffExponentialFactor]⟩
      ({ o with retryPolicy := some pol }, h)
  | .WithTracingOptions enabled operationName spanOptions, o, h =>
      let o1 : Options := { o with operationName := operationName }
      match o1.tracingOptions with
      | none =>
          ({ o1 with tracingOptions := some h.tracing.length },
           { tracing := h.tracing ++
               [{ enabled := enabled, injectCarrier := false, spanOptions := spanOptions }] })
      | some p =>
          (o1, h.update p fun t =>
            { t with enabled := enabled, spanOptions := spanOptions })
  | .WithSpanCarrierInjected, o, h =>
      match o.tracingOptions with
      | none =>
          ({ o with tracingOptions := some h.tracing.length },
           { tracing := h.tracing ++
               [{ enabled := false, injectCarrier := true, spanOptions := [] }] })
      | some p =>
          (o, h.update p fun t => { t with injectCarrier := true })

/-- Apply a list of options in order. -/
def applyOptions (opts : List ClientOption) (o : Options) (h : Heap) : Options × Heap :=
  opts.foldl (fun oh opt => applyOption opt oh.1 oh.2) (o, h)

/-- The `Client` struct: its stored default options and the heap holding
the `tracingOptions` structs those defaults point into.  (The random
generator and the underlying `http.Client` carry no claim-relevant
state.) -/
structure Client where
  options : Options
  heap : Heap

/-- The zero value of `options` used by `New`. -/
def emptyOptions : Options :=
  { operationName := "", tracingOptions := none, retryPolicy := none }

/-- `New(opts...)` (client.go lines 38-60): apply the caller's options to
a zero options struct, then, if no retry policy was set, apply
`WithStandardRetryPolicy(defaultReqTimeout, defaultMaxRetries)`. -/
def New (opts : List ClientOption) : Client :=
  let oh := applyOptions opts emptyOptions { tracing := [] }
  let oh2 :=
    if oh.1.retryPolicy.isNone then
      applyOption (.WithStandardRetryPolicy defaultReqTimeout defaultMaxRetries) oh.1 oh.2
    else oh
  { options := oh2.1, heap := oh2.2 }

/-- The per-call option merge at the top of `Do` (client.go lines
103-106): start from a shallow copy of the client's options struct (the
`tracingOptions` pointer is shared with the client) and apply the
per-call options. -/
def mergedOptions (c : Client) (opts : List ClientOption) : Options × Heap :=
  applyOptions opts c.options c.heap

/-- The configuration a call actually observes: the options struct with
its tracing pointer dereferenced. -/
structure ObservedOptions where
  operationName : String
  tracing : Option TracingOptions
  retryPolicy : Option RetryPolicy

/-- Observe an options struct through a heap. -/
def observe (o : Options) (h : Heap) : ObservedOptions :=
  { operationName := o.operationName, tracing := getTO o h, retryPolicy := o.retryPolicy }

/-- The retry policy `Do` dereferences (`requestOpts.retryPolicy`); the
public constructors guarantee it is present (`New` installs a default),
so the `getD` default is never reached from the public API (Go would
nil-panic there). -/
def policyOf (o : Options) : RetryPolicy :=
  o.retryPolicy.getD { requestTimeout := 0, retryStrategies := [] }

/-- The oracle supplying the outcome of every effectful step of one call:
`bodyPrep` is the result of `getRequestBodyReadSeekCloser`, `inject` the
result of `opentracing.GlobalTracer().Inject`, and, indexed by the loop's
cumulative attempt counter, `rewind` is the result of `reqBody.Seek(0)`,
`transport` the result of `c.client.Do`, and `ctxDone` whether the overall
context is observed cancelled at the start of that attempt. -/
structure Env where
  bodyPrep : Option Err
  inject : Option Err
  rewind : Nat → Option Err
  transport : Nat → TransportOutcome
  ctxDone : Nat → Bool

/-- The per-attempt configuration the `action` closure reads: whether the
request has a (replayable) body and `requestOpts.retryPolicy.requestTimeout`. -/
structure AttemptCfg where
  hasBody : Bool
  requestTimeout : Nat

/-- The loop-carried variables: the external loop's cumulative attempt
counter, its most recent error, and the client's captured `resp`
variable (client.go line 137). -/
structure LoopState where
  attempt : Nat
  lastErr : Option Err
  resp : Option Resp

/-- Countable side effects of the loop: number of `c.client.Do`
invocations (the client's `attemptCount`), number of
`context.WithTimeout` derivations, and number of immediate
`cancelFunc()` invocations on transport failure. -/
structure Effects where
  transportCalls : Nat
  timeoutCtxCreated : Nat
  attemptCancels : Nat
deriving DecidableEq, Repr

/-- The all-zero effect record. -/
def Effects.zero : Effects := ⟨0, 0, 0⟩

/-- Accumulate effects. -/
def Effects.plus (a b : Effects) : Effects :=
  ⟨a.transportCalls + b.transportCalls, a.timeoutCtxCreated + b.timeoutCtxCreated,
    a.attemptCancels + b.attemptCancels⟩

/-- The transport portion of the `action` closure (client.go lines
155-176): derive a timeout context when `requestTimeout` is non-zero,
invoke the transport, on failure invoke the attempt's cancel immediately
and return the error (together with whatever response value the transport
assigned to `resp`), on success wrap the response body in
`responseBodyReadCloser` carrying the cancel function (nil when no
timeout context was derived). -/
def runTransport (env : Env) (cfg : AttemptCfg) (s : LoopState) :
    LoopState × Effects × Option Err :=
  let tEff : Nat := if cfg.requestTimeout = 0 then 0 else 1
  match env.transport s.attempt with
  | .fail e leaked =>
      ({ s with resp := leaked.map fun r => ⟨r, false, false⟩ },
       ⟨1, tEff, tEff⟩, some e)
  | .ok r =>
      ({ s with resp := some ⟨r, true, cfg.requestTimeout != 0⟩ },
       ⟨1, tEff, 0⟩, none)

/-- The `action` closure (client.go lines 140-177): when a body is
present first rewind it, a rewind failure is returned as this attempt's
error without touching the transport; otherwise proceed to the
transport. -/
def runAction (env : Env) (cfg : AttemptCfg) (s : LoopState) :
    LoopState × Effects × Option Err :=
  if cfg.hasBody then
    match env.rewind s.attempt with
    | some e => (s, Effects.zero, some e)
    | none => runTransport env cfg s
  else runTransport env cfg s

/-- Should the strategy sequence authorize another attempt, given the
cumulative attempt count and the most recent error: all strategies must
agree. -/
def shouldRetry (strategies : List Strategy) (attempt : Nat) (e : Err) : Bool :=
  strategies.all fun st => st.eval attempt (some e)

/-- Final disposition of the retry loop. -/
inductive LoopOutcome where
  | success
  | failed (e : Err)
  | interrupted
  | outOfFuel
deriving DecidableEq, Repr

/-- Modelled from the spec: `retry.Do` of github.com/kamilsk/retry/v5 is
not part of this repository; this loop follows the spec's AttemptLoop
state machine (sections 4.4, 6 and 7).  At the start of every attempt the
overall context is checked (terminal `interrupted` when cancelled); the
attempt's `action` then runs; on success the loop terminates; on failure
the strategy sequence is consulted with the cumulative attempt count and
the failure error, recursing when all strategies permit and otherwise
terminating with the most recent error.  `fuel` bounds the recursion; it
is a modelling artifact only, and every theorem below supplies enough
fuel for the `Limit` strategy to terminate the loop first. -/
def retryDo (env : Env) (cfg : AttemptCfg) (strategies : List Strategy) :
    Nat → LoopState → LoopState × Effects × LoopOutcome
  | 0, s => (s, Effects.zero, LoopOutcome.outOfFuel)
  | fuel + 1, s =>
    if env.ctxDone s.attempt then (s, Effects.zero, LoopOutcome.interrupted)
    else
      let step := runAction env cfg s
      match step.2.2 with
      | none => (step.1, step.2.1, LoopOutcome.success)
      | some e =>
        let s2 : LoopState := { step.1 with attempt := step.1.attempt + 1, lastErr := some e }
        if shouldRetry strategies s2.attempt e then
          let rec1 := retryDo env cfg strategies fuel s2
          (rec1.1, Effects.plus step.2.1 rec1.2.1, rec1.2.2)
        else (s2, step.2.1, LoopOutcome.failed e)

/-- Result of `startAndInjectSpan` (client.go lines 220-252) together
with its observable effects: `spanName` is the non-nil span handle the
caller receives (identified by its operation name), `ctxReplaced` records
that a span-carrying context was returned, `spanStarted` that a span was
started in the tracer, and `injected` that trace-propagation headers were
written into the request. -/
structure SpanOutcome where
  spanName : Option String
  ctxReplaced : Bool
  spanStarted : Bool
  injected : Bool
  err : Option Err
deriving DecidableEq, Repr

/-- `startAndInjectSpan`: a true no-op when tracing options are absent or
tracing is not enabled; otherwise start the span (suffixing the operation
name when one is configured) and, only when carrier injection was
requested, inject the carrier, failing the whole setup on an injection
error (the Go function then returns a nil span and the error). -/
def startAndInjectSpan (env : Env) (tracing : Option TracingOptions)
    (operationName : String) : SpanOutcome :=
  match tracing with
  | none => ⟨none, false, false, false, none⟩
  | some t =>
    if t.enabled then
      let opName : String :=
        if operationName = "" then "HTTP Egress" else "HTTP Egress - " ++ operationName
      if t.injectCarrier then
        match env.inject with
        | some e => ⟨none, false, true, false, some e⟩
        | none => ⟨some opName, true, true, true, none⟩
      else ⟨some opName, true, true, false, none⟩
    else ⟨none, false, false, false, none⟩

/-- A request as far as the claims are concerned: whether it carries a
body. -/
structure Req where
  hasBody : Bool

/-- Everything observable about one `Do` call: the returned pair, the
call's countable effects, the tracing effects, the body handle (if any)
of a discarded response closed internally on the failure path (client.go
lines 191-193), whether the captured request body was closed by the
deferred close, and the heap as the call leaves it (per-call option
application can mutate it through the shared pointer). -/
structure DoResult where
  resp : Option Resp
  err : Option Err
  transportCalls : Nat
  timeoutCtxCreated : Nat
  attemptCancels : Nat
  spanStarted : Bool
  injected : Bool
  ctxReplaced : Bool
  internallyClosedBody : Option Nat
  reqBodyClosed : Bool
  heapAfter : Heap

/-- The retry loop of one call, from the merged options: the `action`
configuration is the request's body flag and the policy's timeout, the
strategy sequence is the policy's, and the loop starts from a zero
attempt counter with no error and no response. -/
def loopOf (o : Options) (hasBody : Bool) (env : Env) (fuel : Nat) :
    LoopState × Effects × LoopOutcome :=
  retryDo env ⟨hasBody, (policyOf o).requestTimeout⟩ (policyOf o).retryStrategies
    fuel ⟨0, none, none⟩

/-- The part of `Do` after option merging and body capture (client.go
lines 124-201): span setup (failing the call immediately on a tracing
setup error), then the retry loop, then the single exit point that
returns exactly one of response and error, closing any discarded
response's body on the failure path. -/
def doMain (requestOpts : Options) (heap : Heap) (hasBody : Bool) (env : Env)
    (fuel : Nat) : DoResult :=
  let spo := startAndInjectSpan env (getTO requestOpts heap) requestOpts.operationName
  match spo.err with
  | some e =>
      { resp := none, err := some (Err.wrap "error starting and injecting tracing span" e),
        transportCalls := 0, timeoutCtxCreated := 0, attemptCancels := 0,
        spanStarted := spo.spanStarted, injected := spo.injected,
        ctxReplaced := spo.ctxReplaced, internallyClosedBody := none,
        reqBodyClosed := hasBody, heapAfter := heap }
  | none =>
      let run := loopOf requestOpts hasBody env fuel
      let finalS := run.1
      let eff := run.2.1
      match run.2.2 with
      | LoopOutcome.success =>
          { resp := finalS.resp, err := none,
            transportCalls := eff.transportCalls,
            timeoutCtxCreated := eff.timeoutCtxCreated,
            attemptCancels := eff.attemptCancels,
            spanStarted := spo.spanStarted, injected := spo.injected,
            ctxReplaced := spo.ctxReplaced, internallyClosedBody := none,
            reqBodyClosed := hasBody, heapAfter := heap }
      | out =>
          let e : Option Err :=
            match out with
            | LoopOutcome.failed e => some e
            | LoopOutcome.interrupted => some Err.canceled
            | _ => finalS.lastErr
          { resp := none, err := e,
            transportCalls := eff.transportCalls,
            timeoutCtxCreated := eff.timeoutCtxCreated,
            attemptCancels := eff.attemptCancels,
            spanStarted := spo.spanStarted, injected := spo.injected,
            ctxReplaced := spo.ctxReplaced,
            internallyClosedBody := finalS.resp.map fun r => r.raw.bodyId,
            reqBodyClosed := hasBody, heapAfter := heap }

/-- `Do` (client.go lines 102-202): merge per-call options over the
client defaults, capture the request body (failing immediately on a
body-preparation error), then run `doMain`. -/
def Do (c : Client) (req : Req) (opts : List ClientOption) (env : Env)
    (fuel : Nat) : DoResult :=
  let oh := mergedOptions c opts
  if req.hasBody then
    match env.bodyPrep with
    | some e =>
        { resp := none, err := some (Err.wrap "error preparing request body" e),
          transportCalls := 0, timeoutCtxCreated := 0, attemptCancels := 0,
          spanStarted := false, injected := false, ctxReplaced := false,
          internallyClosedBody := none, reqBodyClosed := false, heapAfter := oh.2 }
    | none => doMain oh.1 oh.2 true env fuel
  else doMain oh.1 oh.2 false env fuel

/-- `Get` (client.go lines 62-69): build a bodyless GET request and
forward to `Do`; `reqErr` is the result of `http.NewRequestWithContext`,
a failure is returned wrapped, with a nil response. -/
def Get (c : Client) (reqErr : Option Err) (opts : List ClientOption) (env : Env)
    (fuel : Nat) : DoResult :=
  match reqErr with
  | some e =>
      { resp := none, err := some (Err.wrap "error creating request" e),
        transportCalls := 0, timeoutCtxCreated := 0, attemptCancels := 0,
        spanStarted := false, injected := false, ctxReplaced := false,
        internallyClosedBody := none, reqBodyClosed := false, heapAfter := c.heap }
  | none => Do c ⟨false⟩ opts env fuel

/-- `Head` (client.go lines 71-78): same shape as `Get`. -/
def Head (c : Client) (reqErr : Option Err) (opts : List ClientOption) (env : Env)
    (fuel : Nat) : DoResult :=
  match reqErr with
  | some e =>
      { resp := none, err := some (Err.wrap "error creating request" e),
        transportCalls := 0, timeoutCtxCreated := 0, attemptCancels := 0,
        spanStarted := false, injected := false, ctxReplaced := false,
        internallyClosedBody := none, reqBodyClosed := false, heapAfter := c.heap }
  | none => Do c ⟨false⟩ opts env fuel

/-- `Post` (client.go lines 80-87): builds a request that carries a body
exactly when the caller passed a non-nil reader, then forwards to `Do`. -/
def Post (c : Client) (reqErr : Option Err) (hasBody : Bool)
    (opts : List ClientOption) (env : Env) (fuel : Nat) : DoResult :=
  match reqErr with
  | some e =>
      { resp := none, err := some (Err.wrap "error creating request" e),
        transportCalls := 0, timeoutCtxCreated := 0, attemptCancels := 0,
        spanStarted := false, injected := false, ctxReplaced := false,
        internallyClosedBody := none, reqBodyClosed := false, heapAfter := c.heap }
  | none => Do c ⟨hasBody⟩ opts env fuel

/-- State of a `responseBodyReadCloser` handed to the caller: whether it
holds a cancellation function, how many times that function has been
invoked, and how many times the underlying body's `Close` has been
called. -/
structure RespBodyState where
  hasCancel : Bool
  cancelCalls : Nat
  innerCloseCalls : Nat
deriving DecidableEq, Repr

/-- The wrapper state for a response as `Do` returns it. -/
def initBody (r : Resp) : RespBodyState :=
  { hasCancel := r.hasCancel, cancelCalls := 0, innerCloseCalls := 0 }

/-- One `Close()` call on the wrapper (client.go lines 265-271): when a
cancel function is held it is invoked (deferred), and the underlying
body's `Close` is called; there is no once-guard. -/
def respBodyClose (s : RespBodyState) : RespBodyState :=
  { s with cancelCalls := if s.hasCancel then s.cancelCalls + 1 else s.cancelCalls,
           innerCloseCalls := s.innerCloseCalls + 1 }

/-- `n` successive `Close()` calls on the wrapper. -/
def respBodyCloseN : Nat → RespBodyState → RespBodyState
  | 0, s => s
  | n + 1, s => respBodyCloseN n (respBodyClose s)

/-- Is an option one of the two retry-policy constructors? -/
def isRetryOpt : ClientOption → Bool
  | .WithRetryPolicy _ _ _ => true
  | .WithStandardRetryPolicy _ _ => true
  | _ => false

/-- Does a list of options contain no retry-policy option? -/
def noRetryOpt (opts : List ClientOption) : Bool :=
  opts.all fun o => !(isRetryOpt o)

/-- Is an option a `WithTracingOptions` call that enables tracing? -/
def isEnableTracing : ClientOption → Bool
  | .WithTracingOptions true _ _ => true
  | _ => false

/-- Does a list of options never enable tracing? -/
def noEnableTracing (opts : List ClientOption) : Bool :=
  opts.all fun o => !(isEnableTracing o)

/-- Every `tracingOptions` struct in the heap has tracing disabled. -/
def allDisabled (h : Heap) : Bool :=
  h.tracing.all fun t => !t.enabled

/-- The stored retry policy, if present, has a `Limit` strategy at the
head of its sequence. -/
def LimitHeaded (o : Options) : Prop :=
  ∃ t n rest, o.retryPolicy = some ⟨t, Strategy.Limit n :: rest⟩

/-- The bound of the `Limit` strategy heading the stored policy (zero
when the policy is absent or not `Limit`-headed, which never happens via
the public constructors). -/
def limitHeadBound (o : Options) : Nat :=
  match (policyOf o).retryStrategies with
  | Strategy.Limit n :: _ => n
  | _ => 0

/-- A benign oracle: no body-preparation or injection error, rewinds
succeed, every transport call succeeds with status 204 and body handle 5,
and the overall context is never cancelled. -/
def envOk : Env :=
  ⟨none, none, fun _ => none, fun _ => TransportOutcome.ok ⟨204, 5⟩, fun _ => false⟩

/-- An oracle on which every transport invocation fails with `Err.base 7`
and no leaked response; everything else is benign. -/
def envFail : Env :=
  ⟨none, none, fun _ => none, fun _ => TransportOutcome.fail (Err.base 7) none,
    fun _ => false⟩

/-- A benign oracle except that carrier injection fails with
`Err.base 9`. -/
def envInjectFail : Env :=
  ⟨none, some (Err.base 9), fun _ => none, fun _ => TransportOutcome.ok ⟨204, 5⟩,
    fun _ => false⟩

/-- A benign oracle except that the first rewind fails with
`Err.base 3`. -/
def envRewindOnce : Env :=
  ⟨none, none, fun k => if k = 0 then some (Err.base 3) else none,
    fun _ => TransportOutcome.ok ⟨204, 5⟩, fun _ => false⟩

/-- An oracle whose first rewind fails with `Err.base 3` and whose
transport always fails with `Err.base 7`. -/
def envRewindOnceFail : Env :=
  ⟨none, none, fun k => if k = 0 then some (Err.base 3) else none,
    fun _ => TransportOutcome.fail (Err.base 7) none, fun _ => false⟩

/-- The transport-failure twin of `envRewindOnceFail`: rewinds always
succeed, and the first transport call fails with the same `Err.base 3`
the other oracle reports from its rewind. -/
def envSeekAsTransport : Env :=
  ⟨none, none, fun _ => none,
    fun k => if k = 0 then TransportOutcome.fail (Err.base 3) none
      else TransportOutcome.fail (Err.base 7) none, fun _ => false⟩

/-- Adding the zero effect record on the left is the identity. -/
theorem Effects.zero_plus (e : Effects) : Effects.plus Effects.zero e = e := by
  cases e
  simp [Effects.plus, Effects.zero]

/-- Closing the wrapper `m` times invokes the cancel function once per
close when one is held (and never otherwise), closes the underlying body
once per close, and does not change whether a cancel function is held. -/
theorem respBodyCloseN_spec (m : Nat) (s : RespBodyState) :
    (respBodyCloseN m s).hasCancel = s.hasCancel
    ∧ (respBodyCloseN m s).cancelCalls
        = s.cancelCalls + (if s.hasCancel then m else 0)
    ∧ (respBodyCloseN m s).innerCloseCalls = s.innerCloseCalls + m := by
  induction m generalizing s with
  | zero => simp [respBodyCloseN]
  | succ n ih =>
    have h := ih (respBodyClose s)
    rcases h with ⟨h1, h2, h3⟩
    refine ⟨?_, ?_, ?_⟩
    · rw [respBodyCloseN, h1]
      simp [respBodyClose]
    · rw [respBodyCloseN, h2]
      by_cases hc : s.hasCancel
      · simp [respBodyClose, hc]
        omega
      · simp [respBodyClose, hc]
    · rw [respBodyCloseN, h3]
      simp [respBodyClose]
      omega

/-- The `action` closure never changes the loop's attempt counter or its
most recent error; those belong to the outer loop. -/
theorem runAction_attempt (env : Env) (cfg : AttemptCfg) (s : LoopState) :
    (runAction env cfg s).1.attempt = s.attempt
    ∧ (runAction env cfg s).1.lastErr = s.lastErr := by
  unfold runAction runTransport
  by_cases hb : cfg.hasBody <;>
    cases hrw : env.rewind s.attempt <;>
    cases htr : env.transport s.attempt <;>
    simp [hb, hrw, htr]

/-- One `action` invocation makes at most one transport call. -/
theorem runAction_transportCalls_le (env : Env) (cfg : AttemptCfg) (s : LoopState) :
    (runAction env cfg s).2.1.transportCalls ≤ 1 := by
  unfold runAction runTransport
  by_cases hb : cfg.hasBody <;>
    cases hrw : env.rewind s.attempt <;>
    cases htr : env.transport s.attempt <;>
    simp [hb, hrw, htr, Effects.zero]

/-- When the `action` returns no error, the transport succeeded and
`resp` now holds a response whose body is wrapped, carrying a cancel
function exactly when a per-attempt timeout is configured. -/
theorem runAction_none_resp (env : Env) (cfg : AttemptCfg) (s : LoopState)
    (h : (runAction env cfg s).2.2 = none) :
    ∃ rr, (runAction env cfg s).1.resp
      = some ⟨rr, true, cfg.requestTimeout != 0⟩ := by
  unfold runAction runTransport at h ⊢
  by_cases hb : cfg.hasBody <;>
    cases hrw : env.rewind s.attempt <;>
    cases htr : env.transport s.attempt <;>
    simp_all

/-- With a zero `requestTimeout`, an attempt derives no timeout context
and invokes no cancel function. -/
theorem runAction_timeout_zero (env : Env) (cfg : AttemptCfg) (s : LoopState)
    (h : cfg.requestTimeout = 0) :
    (runAction env cfg s).2.1.timeoutCtxCreated = 0
    ∧ (runAction env cfg s).2.1.attemptCancels = 0 := by
  unfold runAction runTransport
  by_cases hb : cfg.hasBody <;>
    cases hrw : env.rewind s.attempt <;>
    cases htr : env.transport s.attempt <;>
    simp [hb, hrw, htr, h, Effects.zero]

/-- The `action` reads the oracle only at the current attempt index. -/
theorem runAction_congr (env1 env2 : Env) (cfg : AttemptCfg) (s : LoopState)
    (h1 : env1.rewind s.attempt = env2.rewind s.attempt)
    (h2 : env1.transport s.attempt = env2.transport s.attempt) :
    runAction env1 cfg s = runAction env2 cfg s := by
  unfold runAction runTransport
  rw [h1, h2]

/-- When no rewind is in the way (bodyless request, or a rewind that
succeeds), the `action` is exactly its transport portion. -/
theorem runAction_no_rewind (env : Env) (cfg : AttemptCfg) (s : LoopState)
    (h : cfg.hasBody = false ∨ env.rewind s.attempt = none) :
    runAction env cfg s = runTransport env cfg s := by
  unfold runAction
  rcases h with h | h
  · simp [h]
  · split
    · rw [h]
    · rfl

/-- The transport portion on a failing transport: one transport call, a
timeout context and an immediate cancel exactly when a timeout is
configured, and the attempt's error returned. -/
theorem runTransport_fail (env : Env) (cfg : AttemptCfg) (s : LoopState)
    (e : Err) (l : Option RawResp) (h : env.transport s.attempt = TransportOutcome.fail e l) :
    runTransport env cfg s
      = ({ s with resp := l.map fun r => ⟨r, false, false⟩ },
         ⟨1, if cfg.requestTimeout = 0 then 0 else 1, if cfg.requestTimeout = 0 then 0 else 1⟩,
         some e) := by
  unfold runTransport
  rw [h]

/-- A `Limit` strategy at the head of the sequence only authorizes a
retry while the cumulative attempt count is below its bound. -/
theorem shouldRetry_limit_lt (n : Nat) (rest : List Strategy) (a : Nat) (e : Err)
    (h : shouldRetry (Strategy.Limit n :: rest) a e = true) : a < n := by
  simp [shouldRetry, Strategy.eval] at h
  exact h.1

/-- When every strategy after the head `Limit` always permits, the
sequence's verdict is exactly the `Limit` comparison. -/
theorem shouldRetry_limit_of_rest (n : Nat) (rest : List Strategy) (a : Nat) (e : Err)
    (hrest : ∀ st ∈ rest, ∀ b e2, st.eval b (some e2) = true) :
    shouldRetry (Strategy.Limit n :: rest) a e = decide (a < n) := by
  simp [shouldRetry, Strategy.eval]
  intro _
  intro st hst
  exact hrest st hst a e

/-- With a `Limit n` strategy at the head of the sequence, fuel at least
`max 1 (n - attempt)` is enough for the loop to decide before running
out: the fuel parameter is a modelling artifact, never observable. -/
theorem retryDo_no_outOfFuel (env : Env) (cfg : AttemptCfg) (n : Nat)
    (rest : List Strategy) :
    ∀ fuel s, 1 ≤ fuel → n ≤ s.attempt + fuel →
      (retryDo env cfg (Strategy.Limit n :: rest) fuel s).2.2 ≠ LoopOutcome.outOfFuel := by
  intro fuel
  induction fuel with
  | zero => intro s h1 _; omega
  | succ fuel ih =>
    intro s _ h2
    rw [retryDo]
    by_cases hd : env.ctxDone s.attempt
    · simp [hd]
    · simp only [hd, if_false, Bool.false_eq_true]
      cases hE : (runAction env cfg s).2.2 with
      | none => simp
      | some e =>
        simp only
        by_cases hs : shouldRetry (Strategy.Limit n :: rest) ((runAction env cfg s).1.attempt + 1) e
        · simp only [hs, if_true]
          have hat := (runAction_attempt env cfg s).1
          have hlt : (runAction env cfg s).1.attempt + 1 < n :=
            shouldRetry_limit_lt n rest _ e hs
          exact ih _ (by omega) (by simp [hat]; omega)
        · simp [hs]

/-- A successful loop leaves `resp` holding a wrapped response whose
cancel function is present exactly when a per-attempt timeout is
configured. -/
theorem retryDo_success_resp (env : Env) (cfg : AttemptCfg) (st : List Strategy) :
    ∀ fuel s, (retryDo env cfg st fuel s).2.2 = LoopOutcome.success →
      ∃ rr, (retryDo env cfg st fuel s).1.resp
        = some ⟨rr, true, cfg.requestTimeout != 0⟩ := by
  intro fuel
  induction fuel with
  | zero => intro s h; simp [retryDo] at h
  | succ fuel ih =>
    intro s h
    rw [retryDo] at h ⊢
    by_cases hd : env.ctxDone s.attempt
    · simp [hd] at h
    · simp only [hd, if_false, Bool.false_eq_true] at h ⊢
      cases hE : (runAction env cfg s).2.2 with
      | none =>
        simp only [hE] at h ⊢
        exact runAction_none_resp env cfg s hE
      | some e =>
        simp only [hE] at h ⊢
        by_cases hs : shouldRetry st ((runAction env cfg s).1.attempt + 1) e
        · simp only [hs, if_true] at h ⊢
          exact ih _ h
        · simp [hs] at h

/-- With a zero per-attempt timeout the whole loop derives no timeout
context and invokes no cancel function. -/
theorem retryDo_timeout_zero (env : Env) (cfg : AttemptCfg) (st : List Strategy)
    (h0 : cfg.requestTimeout = 0) :
    ∀ fuel s, (retryDo env cfg st fuel s).2.1.timeoutCtxCreated = 0
      ∧ (retryDo env cfg st fuel s).2.1.attemptCancels = 0 := by
  intro fuel
  induction fuel with
  | zero => intro s; simp [retryDo, Effects.zero]
  | succ fuel ih =>
    intro s
    rw [retryDo]
    by_cases hd : env.ctxDone s.attempt
    · simp [hd, Effects.zero]
    · simp only [hd, if_false, Bool.false_eq_true]
      have hact := runAction_timeout_zero env cfg s h0
      cases hE : (runAction env cfg s).2.2 with
      | none => simp only; exact hact
      | some e =>
        simp only
        by_cases hs : shouldRetry st ((runAction env cfg s).1.attempt + 1) e
        · simp only [hs, if_true]
          have hrec := ih { (runAction env cfg s).1 with
            attempt := (runAction env cfg s).1.attempt + 1, lastErr := some e }
          simp [Effects.plus, hact.1, hact.2, hrec.1, hrec.2]
        · simp only [hs, if_false]
          exact hact

/-- With a `Limit n` strategy at the head, the loop makes at most
`max (n - attempt) 1` transport calls from any state. -/
theorem retryDo_transportCalls_le (env : Env) (cfg : AttemptCfg) (n : Nat)
    (rest : List Strategy) :
    ∀ fuel s, (retryDo env cfg (Strategy.Limit n :: rest) fuel s).2.1.transportCalls
      ≤ max (n - s.attempt) 1 := by
  intro fuel
  induction fuel with
  | zero => intro s; simp [retryDo, Effects.zero]
  | succ fuel ih =>
    intro s
    rw [retryDo]
    by_cases hd : env.ctxDone s.attempt
    · simp [hd, Effects.zero]
    · simp only [hd, if_false, Bool.false_eq_true]
      have hle := runAction_transportCalls_le env cfg s
      cases hE : (runAction env cfg s).2.2 with
      | none => simp only; omega
      | some e =>
        simp only
        by_cases hs : shouldRetry (Strategy.Limit n :: rest) ((runAction env cfg s).1.attempt + 1) e
        · simp only [hs, if_true]
          have hat := (runAction_attempt env cfg s).1
          have hlt : (runAction env cfg s).1.attempt + 1 < n :=
            shouldRetry_limit_lt n rest _ e hs
          have hrec := ih { (runAction env cfg s).1 with
            attempt := (runAction env cfg s).1.attempt + 1, lastErr := some e }
          simp only [Effects.plus]
          simp at hrec
          rw [hat] at hlt hrec ⊢
          omega
        · simp [hs]
          omega

/-- When every transport invocation fails with an error (and no leaked
response), no rewind interferes, the overall context stays live and every
strategy after the head `Limit n` always permits, the loop makes exactly
`n - attempt` transport calls from a state whose attempt counter is still
below `n`. -/
theorem retryDo_all_fail_count (env : Env) (cfg : AttemptCfg) (n : Nat)
    (rest : List Strategy)
    (hrest : ∀ st ∈ rest, ∀ b e2, st.eval b (some e2) = true)
    (htr : ∀ k, ∃ e, env.transport k = TransportOutcome.fail e none)
    (hcd : ∀ k, env.ctxDone k = false)
    (hrw : cfg.hasBody = false ∨ ∀ k, env.rewind k = none) :
    ∀ fuel s, s.attempt < n → n ≤ s.attempt + fuel →
      (retryDo env cfg (Strategy.Limit n :: rest) fuel s).2.1.transportCalls
        = n - s.attempt := by
  intro fuel
  induction fuel with
  | zero => intro s h1 h2; omega
  | succ fuel ih =>
    intro s h1 h2
    rw [retryDo]
    simp only [hcd s.attempt, Bool.false_eq_true, if_false]
    obtain ⟨e, he⟩ := htr s.attempt
    have hact : runAction env cfg s = runTransport env cfg s := by
      apply runAction_no_rewind
      rcases hrw with h | h
      · exact Or.inl h
      · exact Or.inr (h s.attempt)
    have htrans := runTransport_fail env cfg s e none he
    rw [hact, htrans]
    by_cases hlt : s.attempt + 1 < n
    · have hrec := ih ⟨s.attempt + 1, some e, none⟩ (by simp; omega) (by simp; omega)
      simp only at hrec
      simp [shouldRetry_limit_of_rest n rest _ e hrest, hlt, Effects.plus, hrec]
      omega
    · simp [shouldRetry_limit_of_rest n rest _ e hrest, hlt]
      omega

/-- The loop reads the oracle only at indices at or beyond the current
attempt counter: two oracles agreeing there drive it identically. -/
theorem retryDo_env_congr (env1 env2 : Env) (cfg : AttemptCfg) (st : List Strategy) :
    ∀ fuel s,
      (∀ j, s.attempt ≤ j → env1.rewind j = env2.rewind j
        ∧ env1.transport j = env2.transport j ∧ env1.ctxDone j = env2.ctxDone j) →
      retryDo env1 cfg st fuel s = retryDo env2 cfg st fuel s := by
  intro fuel
  induction fuel with
  | zero => intro s _; rfl
  | succ fuel ih =>
    intro s hag
    have h0 := hag s.attempt (Nat.le_refl _)
    have hrac : runAction env1 cfg s = runAction env2 cfg s :=
      runAction_congr env1 env2 cfg s h0.1 h0.2.1
    rw [retryDo, retryDo, h0.2.2, hrac]
    by_cases hd : env2.ctxDone s.attempt
    · simp [hd]
    · simp only [hd, Bool.false_eq_true, if_false]
      cases hE : (runAction env2 cfg s).2.2 with
      | none => rfl
      | some e =>
        simp only
        have hat := (runAction_attempt env2 cfg s).1
        by_cases hs : shouldRetry st ((runAction env2 cfg s).1.attempt + 1) e
        · simp only [hs, if_true]
          rw [ih { (runAction env2 cfg s).1 with
            attempt := (runAction env2 cfg s).1.attempt + 1, lastErr := some e }]
          intro j hj
          apply hag
          simp [hat] at hj
          omega
        · simp [hs]


/-- A non-retry option never touches the `retryPolicy` field. -/
theorem applyOption_nonretry_policy (opt : ClientOption) (o : Options) (h : Heap)
    (hopt : isRetryOpt opt = false) :
    (applyOption opt o h).1.retryPolicy = o.retryPolicy := by
  cases opt with
  | WithRetryPolicy t m ss => simp [isRetryOpt] at hopt
  | WithStandardRetryPolicy t m => simp [isRetryOpt] at hopt
  | WithTracingOptions e nm so =>
    unfold applyOption
    cases ho : o.tracingOptions <;> simp [ho]
  | WithSpanCarrierInjected =>
    unfold applyOption
    cases ho : o.tracingOptions <;> simp [ho]

/-- Applying any single option preserves (or establishes) a stored,
`Limit`-headed retry policy. -/
theorem applyOption_limitHeaded (opt : ClientOption) (o : Options) (h : Heap)
    (ho : LimitHeaded o) : LimitHeaded (applyOption opt o h).1 := by
  cases hop : isRetryOpt opt with
  | false =>
    rcases ho with ⟨t, n, rest, hp⟩
    exact ⟨t, n, rest, by rw [applyOption_nonretry_policy opt o h hop]; exact hp⟩
  | true =>
    cases opt with
    | WithRetryPolicy t m ss => exact ⟨t, m, ss, rfl⟩
    | WithStandardRetryPolicy t m =>
      exact ⟨t, m, [StandardBackOffStrategy stdBackOffExponentialFactor], rfl⟩
    | WithTracingOptions e nm so => simp [isRetryOpt] at hop
    | WithSpanCarrierInjected => simp [isRetryOpt] at hop

/-- Applying an option list preserves a stored `Limit`-headed policy. -/
theorem applyOptions_limitHeaded (opts : List ClientOption) :
    ∀ (o : Options) (h : Heap), LimitHeaded o →
      LimitHeaded (applyOptions opts o h).1 := by
  induction opts with
  | nil => intro o h ho; exact ho
  | cons opt rest ih =>
    intro o h ho
    have hstep : applyOptions (opt :: rest) o h
        = applyOptions rest (applyOption opt o h).1 (applyOption opt o h).2 := rfl
    rw [hstep]
    exact ih _ _ (applyOption_limitHeaded opt o h ho)

/-- A list of non-retry options leaves the `retryPolicy` field alone. -/
theorem applyOptions_noretry_policy (opts : List ClientOption) :
    ∀ (o : Options) (h : Heap), noRetryOpt opts = true →
      (applyOptions opts o h).1.retryPolicy = o.retryPolicy := by
  induction opts with
  | nil => intro o h _; rfl
  | cons opt rest ih =>
    intro o h hno
    simp [noRetryOpt, List.all_cons] at hno
    have hstep : applyOptions (opt :: rest) o h
        = applyOptions rest (applyOption opt o h).1 (applyOption opt o h).2 := rfl
    rw [hstep, ih _ _ (by simp [noRetryOpt]; exact fun x hx => hno.2 x hx)]
    exact applyOption_nonretry_policy opt o h (by simp [hno.1])

/-- Applying any single option preserves the weaker invariant that the
stored policy is either absent or `Limit`-headed. -/
theorem applyOption_noneOrHeaded (opt : ClientOption) (o : Options) (h : Heap)
    (ho : o.retryPolicy = none ∨ LimitHeaded o) :
    (applyOption opt o h).1.retryPolicy = none ∨ LimitHeaded (applyOption opt o h).1 := by
  cases hop : isRetryOpt opt with
  | false =>
    rw [applyOption_nonretry_policy opt o h hop]
    rcases ho with ho | ho
    · exact Or.inl ho
    · rcases ho with ⟨t, n, rest, hp⟩
      exact Or.inr ⟨t, n, rest, by rw [applyOption_nonretry_policy opt o h hop]; exact hp⟩
  | true =>
    right
    cases opt with
    | WithRetryPolicy t m ss => exact ⟨t, m, ss, rfl⟩
    | WithStandardRetryPolicy t m =>
      exact ⟨t, m, [StandardBackOffStrategy stdBackOffExponentialFactor], rfl⟩
    | WithTracingOptions e nm so => simp [isRetryOpt] at hop
    | WithSpanCarrierInjected => simp [isRetryOpt] at hop

/-- Applying an option list preserves the absent-or-`Limit`-headed
invariant. -/
theorem applyOptions_noneOrHeaded (opts : List ClientOption) :
    ∀ (o : Options) (h : Heap), (o.retryPolicy = none ∨ LimitHeaded o) →
      (applyOptions opts o h).1.retryPolicy = none
        ∨ LimitHeaded (applyOptions opts o h).1 := by
  induction opts with
  | nil => intro o h ho; exact ho
  | cons opt rest ih =>
    intro o h ho
    have hstep : applyOptions (opt :: rest) o h
        = applyOptions rest (applyOption opt o h).1 (applyOption opt o h).2 := rfl
    rw [hstep]
    exact ih _ _ (applyOption_noneOrHeaded opt o h ho)

/-- Every client built by `New` stores a retry policy whose strategy
sequence starts with a `Limit` strategy. -/
theorem New_limitHeaded (opts : List ClientOption) : LimitHeaded (New opts).options := by
  unfold New
  by_cases hn : (applyOptions opts emptyOptions { tracing := [] }).1.retryPolicy.isNone
  · simp only [hn, if_true]
    exact ⟨defaultReqTimeout, defaultMaxRetries,
      [StandardBackOffStrategy stdBackOffExponentialFactor], rfl⟩
  · simp only [hn, if_false]
    have hw := applyOptions_noneOrHeaded opts emptyOptions { tracing := [] } (Or.inl rfl)
    rcases hw with hw | hw
    · rw [hw] at hn
      simp at hn
    · exact hw

/-- Once a retry policy is stored, no option application removes it. -/
theorem applyOption_policy_isSome (opt : ClientOption) (o : Options) (h : Heap)
    (ho : o.retryPolicy.isSome = true) :
    (applyOption opt o h).1.retryPolicy.isSome = true := by
  cases hop : isRetryOpt opt with
  | false => rw [applyOption_nonretry_policy opt o h hop]; exact ho
  | true =>
    cases opt with
    | WithRetryPolicy t m ss => rfl
    | WithStandardRetryPolicy t m => rfl
    | WithTracingOptions e nm so => simp [isRetryOpt] at hop
    | WithSpanCarrierInjected => simp [isRetryOpt] at hop

/-- Once a retry policy is stored, applying any option list keeps one. -/
theorem applyOptions_policy_isSome (opts : List ClientOption) :
    ∀ (o : Options) (h : Heap), o.retryPolicy.isSome = true →
      (applyOptions opts o h).1.retryPolicy.isSome = true := by
  induction opts with
  | nil => intro o h ho; exact ho
  | cons opt rest ih =>
    intro o h ho
    exact ih _ _ (applyOption_policy_isSome opt o h ho)

/-- The options any call actually runs with (client defaults merged with
the per-call options) always carry a `Limit`-headed retry policy. -/
theorem merged_limitHeaded (clientOpts callOpts : List ClientOption) :
    LimitHeaded (mergedOptions (New clientOpts) callOpts).1 := by
  have h := applyOptions_noneOrHeaded callOpts (New clientOpts).options
    (New clientOpts).heap (Or.inr (New_limitHeaded clientOpts))
  rcases h with h | h
  · rcases New_limitHeaded clientOpts with ⟨t, n, rest, hp⟩
    have hsome := applyOptions_policy_isSome callOpts (New clientOpts).options
      (New clientOpts).heap (by rw [hp]; rfl)
    rw [h] at hsome
    simp at hsome
  · exact h

/-- Applying a single option that does not enable tracing keeps every
heap entry disabled. -/
theorem applyOption_allDisabled (opt : ClientOption) (o : Options) (h : Heap)
    (hopt : isEnableTracing opt = false) (hh : allDisabled h = true) :
    allDisabled (applyOption opt o h).2 = true := by
  cases opt with
  | WithRetryPolicy t m ss => exact hh
  | WithStandardRetryPolicy t m => exact hh
  | WithTracingOptions e nm so =>
    cases e with
    | true => simp [isEnableTracing] at hopt
    | false =>
      unfold applyOption
      cases ho : o.tracingOptions with
      | none =>
        simp only [ho]
        simp [allDisabled] at hh ⊢
        exact hh
      | some p =>
        simp only [ho, Heap.update]
        cases hg : h.tracing[p]? with
        | none => exact hh
        | some t0 =>
          simp [allDisabled] at hh ⊢
          intro x hx
          rcases List.mem_or_eq_of_mem_set hx with hx | hx
          · exact hh x hx
          · rw [hx]
  | WithSpanCarrierInjected =>
    unfold applyOption
    cases ho : o.tracingOptions with
    | none =>
      simp only [ho]
      simp [allDisabled] at hh ⊢
      exact hh
    | some p =>
      simp only [ho, Heap.update]
      cases hg : h.tracing[p]? with
      | none => exact hh
      | some t0 =>
        simp [allDisabled] at hh ⊢
        intro x hx
        rcases List.mem_or_eq_of_mem_set hx with hx | hx
        · exact hh x hx
        · rw [hx]
          simp
          exact hh t0 (by
            have := List.getElem?_eq_some_iff.mp hg
            rcases this with ⟨hlt, hget⟩
            rw [← hget]
            exact List.getElem_mem hlt)

/-- Applying an option list that never enables tracing keeps every heap
entry disabled. -/
theorem applyOptions_allDisabled (opts : List ClientOption) :
    ∀ (o : Options) (h : Heap), noEnableTracing opts = true → allDisabled h = true →
      allDisabled (applyOptions opts o h).2 = true := by
  induction opts with
  | nil => intro o h _ hh; exact hh
  | cons opt rest ih =>
    intro o h hno hh
    simp [noEnableTracing, List.all_cons] at hno
    exact ih _ _ (by simp [noEnableTracing]; exact fun x hx => hno.2 x hx)
      (applyOption_allDisabled opt o h (by simp [hno.1]) hh)

/-- A client built without ever enabling tracing has a heap whose every
entry is disabled. -/
theorem New_allDisabled (opts : List ClientOption) (hno : noEnableTracing opts = true) :
    allDisabled (New opts).heap = true := by
  unfold New
  have hbase := applyOptions_allDisabled opts emptyOptions { tracing := [] } hno rfl
  by_cases hn : (applyOptions opts emptyOptions { tracing := [] }).1.retryPolicy.isNone
  · simp only [hn, if_true]
    exact hbase
  · simp only [hn, if_false]
    exact hbase

/-- Dereferencing any tracing pointer through an all-disabled heap gives
a struct with tracing disabled. -/
theorem getTO_disabled (o : Options) (h : Heap) (hh : allDisabled h = true) :
    ∀ t, getTO o h = some t → t.enabled = false := by
  intro t hg
  unfold getTO at hg
  cases ho : o.tracingOptions with
  | none => rw [ho] at hg; simp at hg
  | some p =>
    rw [ho] at hg
    simp at hg
    have hmem : t ∈ h.tracing := by
      rcases List.getElem?_eq_some_iff.mp hg with ⟨hlt, hget⟩
      rw [← hget]
      exact List.getElem_mem hlt
    simp [allDisabled] at hh
    exact hh t hmem

/-- Span setup is a no-op whenever the dereferenced tracing options (if
any) have tracing disabled. -/
theorem startAndInjectSpan_disabled (env : Env) (tracing : Option TracingOptions)
    (opName : String) (ht : ∀ t, tracing = some t → t.enabled = false) :
    startAndInjectSpan env tracing opName = ⟨none, false, false, false, none⟩ := by
  cases tracing with
  | none => rfl
  | some t =>
    have := ht t rfl
    unfold startAndInjectSpan
    simp [this]


/-- With a `Limit`-headed policy and enough fuel the loop of a call
never reports the out-of-fuel artifact. -/
theorem loopOf_no_outOfFuel (o : Options) (hasBody : Bool) (env : Env) (fuel : Nat)
    (hfuel : limitHeadBound o < fuel) (hheaded : LimitHeaded o) :
    (loopOf o hasBody env fuel).2.2 ≠ LoopOutcome.outOfFuel := by
  rcases hheaded with ⟨t, n, rest, hp⟩
  have hpol : policyOf o = ⟨t, Strategy.Limit n :: rest⟩ := by
    unfold policyOf
    rw [hp]
    rfl
  have hbound : limitHeadBound o = n := by
    unfold limitHeadBound
    rw [hpol]
  unfold loopOf
  rw [hpol]
  exact retryDo_no_outOfFuel env ⟨hasBody, t⟩ n rest fuel ⟨0, none, none⟩
    (by omega) (by simp; omega)

/-- `doMain` returns exactly one of response and error, and on the
failure path any response handle left over from a discarded attempt is
the one whose body it closes internally. -/
theorem doMain_exclusive (o : Options) (heap : Heap) (hasBody : Bool) (env : Env)
    (fuel : Nat) (hfuel : limitHeadBound o < fuel) (hheaded : LimitHeaded o) :
    ((doMain o heap hasBody env fuel).resp.isSome
      ↔ (doMain o heap hasBody env fuel).err = none)
    ∧ (∀ e, (doMain o heap hasBody env fuel).err = some e →
        (doMain o heap hasBody env fuel).resp = none)
    ∧ ((startAndInjectSpan env (getTO o heap) o.operationName).err = none →
        ∀ e rr, (doMain o heap hasBody env fuel).err = some e →
          (loopOf o hasBody env fuel).1.resp = some rr →
          (doMain o heap hasBody env fuel).internallyClosedBody
            = some rr.raw.bodyId) := by
  cases hspo : (startAndInjectSpan env (getTO o heap) o.operationName).err with
  | some e0 =>
    refine ⟨?_, ?_, ?_⟩ <;> simp [doMain, hspo]
  | none =>
    have hnf := loopOf_no_outOfFuel o hasBody env fuel hfuel hheaded
    cases hout : (loopOf o hasBody env fuel).2.2 with
    | success =>
      have hresp := retryDo_success_resp env
        ⟨hasBody, (policyOf o).requestTimeout⟩ (policyOf o).retryStrategies
        fuel ⟨0, none, none⟩ hout
      rcases hresp with ⟨rr, hresp⟩
      refine ⟨?_, ?_, ?_⟩ <;> simp [doMain, hspo, hout]
      · show (loopOf o hasBody env fuel).1.resp.isSome = true
        rw [show (loopOf o hasBody env fuel).1
            = (retryDo env ⟨hasBody, (policyOf o).requestTimeout⟩
                (policyOf o).retryStrategies fuel ⟨0, none, none⟩).1 from rfl]
        rw [hresp]
        rfl
    | failed e1 =>
      refine ⟨?_, ?_, ?_⟩ <;> simp [doMain, hspo, hout]
      intro e2 rr _ hrr
      rw [hrr]
      exact ⟨rr, rfl, rfl⟩
    | interrupted =>
      refine ⟨?_, ?_, ?_⟩ <;> simp [doMain, hspo, hout]
      intro e2 rr _ hrr
      rw [hrr]
      exact ⟨rr, rfl, rfl⟩
    | outOfFuel => exact absurd hout hnf

/-- `Do` returns exactly one of response and error on every return path,
including the body-preparation and tracing-setup failure paths. -/
theorem Do_exclusive (c : Client) (req : Req) (opts : List ClientOption) (env : Env)
    (fuel : Nat) (hfuel : limitHeadBound (mergedOptions c opts).1 < fuel)
    (hheaded : LimitHeaded (mergedOptions c opts).1) :
    ((Do c req opts env fuel).resp.isSome ↔ (Do c req opts env fuel).err = none)
    ∧ (∀ e, (Do c req opts env fuel).err = some e →
        (Do c req opts env fuel).resp = none) := by
  cases hb : req.hasBody with
  | false =>
    have h := doMain_exclusive (mergedOptions c opts).1 (mergedOptions c opts).2
      false env fuel hfuel hheaded
    have hdo : Do c req opts env fuel
        = doMain (mergedOptions c opts).1 (mergedOptions c opts).2 false env fuel := by
      unfold Do
      rw [hb]
      rfl
    rw [hdo]
    exact ⟨h.1, h.2.1⟩
  | true =>
    cases hbp : env.bodyPrep with
    | some e0 =>
      have hdo : Do c req opts env fuel
          = { resp := none, err := some (Err.wrap "error preparing request body" e0),
              transportCalls := 0, timeoutCtxCreated := 0, attemptCancels := 0,
              spanStarted := false, injected := false, ctxReplaced := false,
              internallyClosedBody := none, reqBodyClosed := false,
              heapAfter := (mergedOptions c opts).2 } := by
        unfold Do
        rw [hb, hbp]
        simp
      rw [hdo]
      simp
    | none =>
      have h := doMain_exclusive (mergedOptions c opts).1 (mergedOptions c opts).2
        true env fuel hfuel hheaded
      have hdo : Do c req opts env fuel
          = doMain (mergedOptions c opts).1 (mergedOptions c opts).2 true env fuel := by
        unfold Do
        rw [hb, hbp]
        simp
      rw [hdo]
      exact ⟨h.1, h.2.1⟩

/-- On every path that reaches the attempt loop (no body-preparation
failure), `Do` is option merging followed by `doMain`. -/
theorem Do_eq_doMain (c : Client) (req : Req) (opts : List ClientOption) (env : Env)
    (fuel : Nat) (hbp : req.hasBody = false ∨ env.bodyPrep = none) :
    Do c req opts env fuel
      = doMain (mergedOptions c opts).1 (mergedOptions c opts).2 req.hasBody env fuel := by
  cases hb : req.hasBody with
  | false =>
    unfold Do
    rw [hb]
    rfl
  | true =>
    rcases hbp with hbp | hbp
    · rw [hb] at hbp
      simp at hbp
    · unfold Do
      rw [hb, hbp]
      simp

/-- The body-preparation failure path of `Do`. -/
theorem Do_bodyPrep_err (c : Client) (req : Req) (opts : List ClientOption) (env : Env)
    (fuel : Nat) (e : Err) (hb : req.hasBody = true) (hbp : env.bodyPrep = some e) :
    Do c req opts env fuel
      = { resp := none, err := some (Err.wrap "error preparing request body" e),
          transportCalls := 0, timeoutCtxCreated := 0, attemptCancels := 0,
          spanStarted := false, injected := false, ctxReplaced := false,
          internallyClosedBody := none, reqBodyClosed := false,
          heapAfter := (mergedOptions c opts).2 } := by
  unfold Do
  rw [hb, hbp]
  simp

/-- Any response `Do` hands to the caller has its body wrapped, with a
cancel function exactly when the merged policy configures a non-zero
per-attempt timeout. -/
theorem Do_resp_shape (c : Client) (req : Req) (opts : List ClientOption) (env : Env)
    (fuel : Nat) (resp : Resp)
    (h : (Do c req opts env fuel).resp = some resp) :
    resp.wrapped = true
    ∧ resp.hasCancel
        = ((policyOf (mergedOptions c opts).1).requestTimeout != 0) := by
  have hbp : req.hasBody = false ∨ env.bodyPrep = none := by
    cases hb : req.hasBody with
    | false => exact Or.inl rfl
    | true =>
      cases hbpe : env.bodyPrep with
      | none => exact Or.inr rfl
      | some e =>
        rw [Do_bodyPrep_err c req opts env fuel e hb hbpe] at h
        simp at h
  rw [Do_eq_doMain c req opts env fuel hbp] at h
  cases hspo : (startAndInjectSpan env
      (getTO (mergedOptions c opts).1 (mergedOptions c opts).2)
      (mergedOptions c opts).1.operationName).err with
  | some e0 => simp [doMain, hspo] at h
  | none =>
    cases hout : (loopOf (mergedOptions c opts).1 req.hasBody env fuel).2.2 with
    | success =>
      simp [doMain, hspo, hout] at h
      have hresp := retryDo_success_resp env
        ⟨req.hasBody, (policyOf (mergedOptions c opts).1).requestTimeout⟩
        (policyOf (mergedOptions c opts).1).retryStrategies fuel ⟨0, none, none⟩ hout
      rcases hresp with ⟨rr, hresp⟩
      have : some resp = some (⟨rr, true,
          (policyOf (mergedOptions c opts).1).requestTimeout != 0⟩ : Resp) := by
        rw [← h, ← hresp]
        rfl
      simp at this
      rw [this]
      exact ⟨rfl, rfl⟩
    | failed e1 => simp [doMain, hspo, hout] at h
    | interrupted => simp [doMain, hspo, hout] at h
    | outOfFuel => simp [doMain, hspo, hout] at h

/-- With a zero per-attempt timeout, `Do` derives no timeout context and
invokes no per-attempt cancel on any path. -/
theorem Do_timeout_zero_effects (c : Client) (req : Req) (opts : List ClientOption)
    (env : Env) (fuel : Nat)
    (ht : (policyOf (mergedOptions c opts).1).requestTimeout = 0) :
    (Do c req opts env fuel).timeoutCtxCreated = 0
    ∧ (Do c req opts env fuel).attemptCancels = 0 := by
  have hloop := retryDo_timeout_zero env
    ⟨req.hasBody, (policyOf (mergedOptions c opts).1).requestTimeout⟩
    (policyOf (mergedOptions c opts).1).retryStrategies ht fuel ⟨0, none, none⟩
  cases hb : req.hasBody with
  | true =>
    cases hbpe : env.bodyPrep with
    | some e => rw [Do_bodyPrep_err c req opts env fuel e hb hbpe]; exact ⟨rfl, rfl⟩
    | none =>
      rw [Do_eq_doMain c req opts env fuel (Or.inr hbpe)]
      cases hspo : (startAndInjectSpan env
          (getTO (mergedOptions c opts).1 (mergedOptions c opts).2)
          (mergedOptions c opts).1.operationName).err with
      | some e0 => simp [doMain, hspo]
      | none =>
        cases hout : (loopOf (mergedOptions c opts).1 req.hasBody env fuel).2.2 with
        | success =>
          refine ⟨?_, ?_⟩ <;> simp [doMain, hspo, hout] <;>
            simp [loopOf, hb] <;> rw [hb] at hloop
          · exact hloop.1
          · exact hloop.2
        | failed e1 =>
          refine ⟨?_, ?_⟩ <;> simp [doMain, hspo, hout] <;>
            simp [loopOf, hb] <;> rw [hb] at hloop
          · exact hloop.1
          · exact hloop.2
        | interrupted =>
          refine ⟨?_, ?_⟩ <;> simp [doMain, hspo, hout] <;>
            simp [loopOf, hb] <;> rw [hb] at hloop
          · exact hloop.1
          · exact hloop.2
        | outOfFuel =>
          refine ⟨?_, ?_⟩ <;> simp [doMain, hspo, hout] <;>
            simp [loopOf, hb] <;> rw [hb] at hloop
          · exact hloop.1
          · exact hloop.2
  | false =>
    rw [Do_eq_doMain c req opts env fuel (Or.inl hb)]
    cases hspo : (startAndInjectSpan env
        (getTO (mergedOptions c opts).1 (mergedOptions c opts).2)
        (mergedOptions c opts).1.operationName).err with
    | some e0 => simp [doMain, hspo]
    | none =>
      cases hout : (loopOf (mergedOptions c opts).1 req.hasBody env fuel).2.2 with
      | success =>
        refine ⟨?_, ?_⟩ <;> simp [doMain, hspo, hout] <;>
          simp [loopOf, hb] <;> rw [hb] at hloop
        · exact hloop.1
        · exact hloop.2
      | failed e1 =>
        refine ⟨?_, ?_⟩ <;> simp [doMain, hspo, hout] <;>
          simp [loopOf, hb] <;> rw [hb] at hloop
        · exact hloop.1
        · exact hloop.2
      | interrupted =>
        refine ⟨?_, ?_⟩ <;> simp [doMain, hspo, hout] <;>
          simp [loopOf, hb] <;> rw [hb] at hloop
        · exact hloop.1
        · exact hloop.2
      | outOfFuel =>
        refine ⟨?_, ?_⟩ <;> simp [doMain, hspo, hout] <;>
          simp [loopOf, hb] <;> rw [hb] at hloop
        · exact hloop.1
        · exact hloop.2

/-- When span setup succeeds, the call's countable and tracing effects
are exactly the loop's and the span setup's, independent of the loop's
outcome. -/
theorem doMain_effects (o : Options) (heap : Heap) (hasBody : Bool) (env : Env)
    (fuel : Nat)
    (hspo : (startAndInjectSpan env (getTO o heap) o.operationName).err = none) :
    (doMain o heap hasBody env fuel).transportCalls
        = (loopOf o hasBody env fuel).2.1.transportCalls
    ∧ (doMain o heap hasBody env fuel).spanStarted
        = (startAndInjectSpan env (getTO o heap) o.operationName).spanStarted
    ∧ (doMain o heap hasBody env fuel).injected
        = (startAndInjectSpan env (getTO o heap) o.operationName).injected
    ∧ (doMain o heap hasBody env fuel).ctxReplaced
        = (startAndInjectSpan env (getTO o heap) o.operationName).ctxReplaced := by
  cases hout : (loopOf o hasBody env fuel).2.2 <;>
    refine ⟨?_, ?_, ?_, ?_⟩ <;> simp [doMain, hspo, hout]

/-- When span setup fails, the call fails immediately: wrapped setup
error, nil response, zero transport invocations. -/
theorem doMain_spanErr (o : Options) (heap : Heap) (hasBody : Bool) (env : Env)
    (fuel : Nat) (e : Err)
    (hspo : (startAndInjectSpan env (getTO o heap) o.operationName).err = some e) :
    (doMain o heap hasBody env fuel).err
        = some (Err.wrap "error starting and injecting tracing span" e)
    ∧ (doMain o heap hasBody env fuel).resp = none
    ∧ (doMain o heap hasBody env fuel).transportCalls = 0
    ∧ (doMain o heap hasBody env fuel).spanStarted
        = (startAndInjectSpan env (getTO o heap) o.operationName).spanStarted
    ∧ (doMain o heap hasBody env fuel).injected
        = (startAndInjectSpan env (getTO o heap) o.operationName).injected := by
  refine ⟨?_, ?_, ?_, ?_, ?_⟩ <;> simp [doMain, hspo]

/-- The transport is invoked at most `max N 1` times per call, where `N`
is the bound of the `Limit` strategy heading the merged policy. -/
theorem Do_transport_le (c : Client) (req : Req) (opts : List ClientOption)
    (env : Env) (fuel : Nat) (n : Nat) (rest : List Strategy)
    (hpol : (policyOf (mergedOptions c opts).1).retryStrategies
      = Strategy.Limit n :: rest) :
    (Do c req opts env fuel).transportCalls ≤ max n 1 := by
  have hl : loopOf (mergedOptions c opts).1 req.hasBody env fuel
      = retryDo env ⟨req.hasBody, (policyOf (mergedOptions c opts).1).requestTimeout⟩
          (Strategy.Limit n :: rest) fuel ⟨0, none, none⟩ := by
    unfold loopOf
    rw [hpol]
  have hloop := retryDo_transportCalls_le env
    ⟨req.hasBody, (policyOf (mergedOptions c opts).1).requestTimeout⟩ n rest fuel
    ⟨0, none, none⟩
  simp at hloop
  cases hb : req.hasBody with
  | true =>
    cases hbpe : env.bodyPrep with
    | some e =>
      rw [Do_bodyPrep_err c req opts env fuel e hb hbpe]
      exact Nat.zero_le _
    | none =>
      rw [Do_eq_doMain c req opts env fuel (Or.inr hbpe)]
      cases hspo : (startAndInjectSpan env
          (getTO (mergedOptions c opts).1 (mergedOptions c opts).2)
          (mergedOptions c opts).1.operationName).err with
      | some e0 =>
        rw [(doMain_spanErr _ _ _ _ fuel e0 hspo).2.2.1]
        exact Nat.zero_le _
      | none =>
        rw [(doMain_effects _ _ _ _ fuel hspo).1, hl]
        omega
  | false =>
    rw [Do_eq_doMain c req opts env fuel (Or.inl hb)]
    cases hspo : (startAndInjectSpan env
        (getTO (mergedOptions c opts).1 (mergedOptions c opts).2)
        (mergedOptions c opts).1.operationName).err with
    | some e0 =>
      rw [(doMain_spanErr _ _ _ _ fuel e0 hspo).2.2.1]
      exact Nat.zero_le _
    | none =>
      rw [(doMain_effects _ _ _ _ fuel hspo).1, hl]
      omega

/-- When span setup succeeds, every transport invocation fails with no
leaked response, nothing is cancelled or blocked by rewinds, and every
strategy after the head `Limit N` (with `N ≥ 1`) always permits, the
transport is invoked exactly `N` times. -/
theorem Do_transport_exact (c : Client) (req : Req) (opts : List ClientOption)
    (env : Env) (fuel : Nat) (n : Nat) (rest : List Strategy)
    (hpol : (policyOf (mergedOptions c opts).1).retryStrategies
      = Strategy.Limit n :: rest)
    (hrest : ∀ st ∈ rest, ∀ b e2, st.eval b (some e2) = true)
    (htr : ∀ k, ∃ e, env.transport k = TransportOutcome.fail e none)
    (hcd : ∀ k, env.ctxDone k = false)
    (hrw : req.hasBody = false ∨ ∀ k, env.rewind k = none)
    (hbp : req.hasBody = false ∨ env.bodyPrep = none)
    (hspo : (startAndInjectSpan env
        (getTO (mergedOptions c opts).1 (mergedOptions c opts).2)
        (mergedOptions c opts).1.operationName).err = none)
    (hn : 1 ≤ n) (hfuel : n ≤ fuel) :
    (Do c req opts env fuel).transportCalls = n := by
  have hl : loopOf (mergedOptions c opts).1 req.hasBody env fuel
      = retryDo env ⟨req.hasBody, (policyOf (mergedOptions c opts).1).requestTimeout⟩
          (Strategy.Limit n :: rest) fuel ⟨0, none, none⟩ := by
    unfold loopOf
    rw [hpol]
  have hrw2 : (⟨req.hasBody, (policyOf (mergedOptions c opts).1).requestTimeout⟩
      : AttemptCfg).hasBody = false ∨ ∀ k, env.rewind k = none := by
    rcases hrw with h | h
    · exact Or.inl h
    · exact Or.inr h
  have hloop := retryDo_all_fail_count env
    ⟨req.hasBody, (policyOf (mergedOptions c opts).1).requestTimeout⟩ n rest
    hrest htr hcd hrw2 fuel ⟨0, none, none⟩ (by simp; omega) (by simp; omega)
  rw [Do_eq_doMain c req opts env fuel hbp,
    (doMain_effects _ _ _ _ fuel hspo).1, hl]
  simp at hloop
  omega

/-- Claim C1: for every call to `Do` — and to `Get`, `Head` and `Post`,
which forward to it — exactly one of the returned response and the
returned error is non-nil on every return path; and on a terminal
failure, a response handle left over from a discarded attempt has its
body closed internally before `Do` returns the nil response with the
error. -/
theorem C1_exactly_one_outcome (clientOpts callOpts : List ClientOption) (req : Req)
    (reqErr : Option Err) (b : Bool) (env : Env) (fuel : Nat)
    (hfuel : limitHeadBound (mergedOptions (New clientOpts) callOpts).1 < fuel) :
    ((Do (New clientOpts) req callOpts env fuel).resp.isSome
        ↔ (Do (New clientOpts) req callOpts env fuel).err = none)
    ∧ (∀ e, (Do (New clientOpts) req callOpts env fuel).err = some e →
        (Do (New clientOpts) req callOpts env fuel).resp = none)
    ∧ ((Get (New clientOpts) reqErr callOpts env fuel).resp.isSome
        ↔ (Get (New clientOpts) reqErr callOpts env fuel).err = none)
    ∧ ((Head (New clientOpts) reqErr callOpts env fuel).resp.isSome
        ↔ (Head (New clientOpts) reqErr callOpts env fuel).err = none)
    ∧ ((Post (New clientOpts) reqErr b callOpts env fuel).resp.isSome
        ↔ (Post (New clientOpts) reqErr b callOpts env fuel).err = none)
    ∧ ((startAndInjectSpan env
          (getTO (mergedOptions (New clientOpts) callOpts).1
            (mergedOptions (New clientOpts) callOpts).2)
          (mergedOptions (New clientOpts) callOpts).1.operationName).err = none →
        (req.hasBody = false ∨ env.bodyPrep = none) →
        ∀ e rr, (Do (New clientOpts) req callOpts env fuel).err = some e →
          (loopOf (mergedOptions (New clientOpts) callOpts).1 req.hasBody env fuel).1.resp
            = some rr →
          (Do (New clientOpts) req callOpts env fuel).internallyClosedBody
            = some rr.raw.bodyId) := by
  have hheaded := merged_limitHeaded clientOpts callOpts
  have hx := Do_exclusive (New clientOpts) req callOpts env fuel hfuel hheaded
  refine ⟨hx.1, hx.2, ?_, ?_, ?_, ?_⟩
  · cases reqErr with
    | some e => simp [Get]
    | none =>
      exact (Do_exclusive (New clientOpts) ⟨false⟩ callOpts env fuel hfuel hheaded).1
  · cases reqErr with
    | some e => simp [Head]
    | none =>
      exact (Do_exclusive (New clientOpts) ⟨false⟩ callOpts env fuel hfuel hheaded).1
  · cases reqErr with
    | some e => simp [Post]
    | none =>
      exact (Do_exclusive (New clientOpts) ⟨b⟩ callOpts env fuel hfuel hheaded).1
  · intro hspan hbp e rr herr hrr
    rw [Do_eq_doMain _ _ _ _ _ hbp] at herr ⊢
    exact (doMain_exclusive (mergedOptions (New clientOpts) callOpts).1
      (mergedOptions (New clientOpts) callOpts).2 req.hasBody env fuel hfuel
      hheaded).2.2 hspan e rr herr hrr

/-- Witness for C1 at a concrete input. -/
theorem C1_witness :
    limitHeadBound (mergedOptions (New []) []).1 < 11
    ∧ ((Do (New []) ⟨false⟩ [] envOk 11).resp.isSome
        ↔ (Do (New []) ⟨false⟩ [] envOk 11).err = none) :=
  ⟨by decide, (C1_exactly_one_outcome [] [] ⟨false⟩ none false envOk 11 (by decide)).1⟩

/-- Claim C2 (code bug witnessed on the code): the per-call option merge
copies the `options` struct but shares the `tracingOptions` pointer with
the client, so a per-call `WithSpanCarrierInjected` (or
`WithTracingOptions`) mutates the client's stored defaults through the
alias: after one call supplying it, the client's observed defaults have
`injectCarrier = true`, and a subsequent call with no options performs
carrier injection the caller never requested for it. -/
theorem C2_defaults_mutated_by_call :
    (observe (New [ClientOption.WithTracingOptions true "op" []]).options
        (New [ClientOption.WithTracingOptions true "op" []]).heap).tracing
      = some ⟨true, false, []⟩
    ∧ (observe (New [ClientOption.WithTracingOptions true "op" []]).options
        (Do (New [ClientOption.WithTracingOptions true "op" []]) ⟨false⟩
          [ClientOption.WithSpanCarrierInjected] envOk 11).heapAfter).tracing
      = some ⟨true, true, []⟩
    ∧ (Do (⟨(New [ClientOption.WithTracingOptions true "op" []]).options,
          (Do (New [ClientOption.WithTracingOptions true "op" []]) ⟨false⟩
            [ClientOption.WithSpanCarrierInjected] envOk 11).heapAfter⟩ : Client)
        ⟨false⟩ [] envOk 11).injected = true := by
  refine ⟨?_, ?_, ?_⟩ <;> decide

/-- Claim C3 counterexample: a policy built by `WithRetryPolicy` with
`maxRetries = 2` and one caller-supplied strategy that always declines;
every attempt made fails with a transport error, yet the transport is
invoked once, not twice. -/
theorem C3_counterexample :
    (Do (New []) ⟨false⟩
        [ClientOption.WithRetryPolicy 0 2 [Strategy.Custom fun _ _ => false]]
        envFail 9).err = some (Err.base 7)
    ∧ (Do (New []) ⟨false⟩
        [ClientOption.WithRetryPolicy 0 2 [Strategy.Custom fun _ _ => false]]
        envFail 9).transportCalls = 1
    ∧ (1 : Nat) ≠ 2 := by
  refine ⟨?_, ?_, ?_⟩ <;> decide

/-- Claim C3 (amended): with the merged policy's strategy sequence headed
by `Limit N`, the transport is invoked at most `max N 1` times — so at
most `N` whenever `N ≥ 1`; and it is invoked exactly `N` times when
`N ≥ 1`, every attempt fails with a transport error, and every other
strategy in the policy permits every retry (as with
`WithStandardRetryPolicy`). -/
theorem C3_transport_bound (clientOpts callOpts : List ClientOption) (req : Req)
    (env : Env) (fuel : Nat) (n : Nat) (rest : List Strategy)
    (hpol : (policyOf (mergedOptions (New clientOpts) callOpts).1).retryStrategies
      = Strategy.Limit n :: rest) :
    ((Do (New clientOpts) req callOpts env fuel).transportCalls ≤ max n 1)
    ∧ (1 ≤ n →
      (∀ st ∈ rest, ∀ b e2, st.eval b (some e2) = true) →
      (∀ k, ∃ e, env.transport k = TransportOutcome.fail e none) →
      (∀ k, env.ctxDone k = false) →
      (req.hasBody = false ∨ ∀ k, env.rewind k = none) →
      (req.hasBody = false ∨ env.bodyPrep = none) →
      (startAndInjectSpan env
        (getTO (mergedOptions (New clientOpts) callOpts).1
          (mergedOptions (New clientOpts) callOpts).2)
        (mergedOptions (New clientOpts) callOpts).1.operationName).err = none →
      n ≤ fuel →
      (Do (New clientOpts) req callOpts env fuel).transportCalls = n) := by
  constructor
  · exact Do_transport_le (New clientOpts) req callOpts env fuel n rest hpol
  · intro hn hrest htr hcd hrw hbp hspo hfuel
    exact Do_transport_exact (New clientOpts) req callOpts env fuel n rest hpol
      hrest htr hcd hrw hbp hspo hn hfuel

/-- Witness for C3 at a concrete input. -/
theorem C3_witness :
    (policyOf (mergedOptions (New []) [ClientOption.WithRetryPolicy 0 2 []]).1).retryStrategies
      = Strategy.Limit 2 :: ([] : List Strategy)
    ∧ (Do (New []) ⟨false⟩ [ClientOption.WithRetryPolicy 0 2 []] envFail 5).transportCalls
        ≤ max 2 1
    ∧ (Do (New []) ⟨false⟩ [ClientOption.WithRetryPolicy 0 2 []] envFail 5).transportCalls
        = 2 := by
  have h := C3_transport_bound [] [ClientOption.WithRetryPolicy 0 2 []] ⟨false⟩ envFail 5 2 [] rfl
  refine ⟨rfl, h.1, ?_⟩
  exact h.2 (by decide) (fun st hst => absurd hst (List.not_mem_nil _))
    (fun k => ⟨Err.base 7, rfl⟩) (fun k => rfl) (Or.inl rfl) (Or.inl rfl) rfl (by decide)

/-- Claim C4 counterexample: the rewind failure on the first attempt is
not terminal — with a `Limit 2` policy a further attempt is made after
the rewind error, and the call even succeeds. -/
theorem C4_counterexample :
    envRewindOnce.rewind 0 = some (Err.base 3)
    ∧ (Do (New []) ⟨true⟩ [ClientOption.WithRetryPolicy 0 2 []] envRewindOnce 5).err = none
    ∧ (Do (New []) ⟨true⟩ [ClientOption.WithRetryPolicy 0 2 []] envRewindOnce 5).resp.isSome
        = true
    ∧ (Do (New []) ⟨true⟩ [ClientOption.WithRetryPolicy 0 2 []] envRewindOnce 5).transportCalls
        = 1 := by
  refine ⟨?_, ?_, ?_, ?_⟩ <;> decide

/-- Claim C4 (amended): when the rewind before an attempt fails, that
attempt fails with exactly the rewind error, without invoking the
transport; the failure is then handed to the strategy sequence like any
other attempt failure — it is terminal (the loop stops and the call's
error is the rewind error) exactly when the strategies decline another
attempt, and otherwise the loop simply proceeds to the next attempt. -/
theorem C4_rewind_error_strategy_decides (env : Env) (cfg : AttemptCfg)
    (strategies : List Strategy) (fuel : Nat) (s : LoopState) (e : Err)
    (hbody : cfg.hasBody = true)
    (hdone : env.ctxDone s.attempt = false)
    (hrw : env.rewind s.attempt = some e) :
    (shouldRetry strategies (s.attempt + 1) e = false →
      retryDo env cfg strategies (fuel + 1) s
        = ({ s with attempt := s.attempt + 1, lastErr := some e },
           Effects.zero, LoopOutcome.failed e))
    ∧ (shouldRetry strategies (s.attempt + 1) e = true →
      retryDo env cfg strategies (fuel + 1) s
        = retryDo env cfg strategies fuel
            { s with attempt := s.attempt + 1, lastErr := some e }) := by
  have hact : runAction env cfg s = (s, Effects.zero, some e) := by
    unfold runAction
    simp [hbody, hrw]
  constructor
  · intro hsr
    rw [retryDo]
    simp [hdone, hact, hsr]
  · intro hsr
    rw [retryDo]
    simp [hdone, hact, hsr, Effects.zero_plus]

/-- Witness for C4 at a concrete input. -/
theorem C4_witness :
    (⟨true, 0⟩ : AttemptCfg).hasBody = true
    ∧ envRewindOnce.ctxDone 0 = false
    ∧ envRewindOnce.rewind 0 = some (Err.base 3)
    ∧ shouldRetry [Strategy.Limit 1] 1 (Err.base 3) = false
    ∧ retryDo envRewindOnce ⟨true, 0⟩ [Strategy.Limit 1] 3 ⟨0, none, none⟩
        = (⟨1, some (Err.base 3), none⟩, Effects.zero, LoopOutcome.failed (Err.base 3)) := by
  refine ⟨rfl, rfl, rfl, by decide, ?_⟩
  exact (C4_rewind_error_strategy_decides envRewindOnce ⟨true, 0⟩ [Strategy.Limit 1] 2
    ⟨0, none, none⟩ (Err.base 3) rfl rfl rfl).1 (by decide)

/-- Claim C5: a body-rewind failure before an attempt's transport call is
counted as that attempt's failure and stays subject to retry, evaluated
by the strategy sequence exactly like a transport failure with the same
error: against any oracle that instead reports the same error from the
transport (and agrees beyond the current attempt), the loop reaches the
same final state and the same outcome — the only difference is the
skipped transport invocation. -/
theorem C5_rewind_error_uniform (env1 env2 : Env) (cfg : AttemptCfg)
    (strategies : List Strategy) (fuel : Nat) (s : LoopState) (e : Err)
    (hbody : cfg.hasBody = true)
    (h1 : env1.rewind s.attempt = some e)
    (h2 : env2.rewind s.attempt = none)
    (h3 : env2.transport s.attempt = TransportOutcome.fail e none)
    (hresp : s.resp = none)
    (hdone : env1.ctxDone s.attempt = env2.ctxDone s.attempt)
    (hagree : ∀ j, s.attempt < j →
      env1.rewind j = env2.rewind j ∧ env1.transport j = env2.transport j
        ∧ env1.ctxDone j = env2.ctxDone j) :
    (retryDo env1 cfg strategies fuel s).1 = (retryDo env2 cfg strategies fuel s).1
    ∧ (retryDo env1 cfg strategies fuel s).2.2
        = (retryDo env2 cfg strategies fuel s).2.2 := by
  cases fuel with
  | zero => exact ⟨rfl, rfl⟩
  | succ fuel =>
    have hact1 : runAction env1 cfg s = (s, Effects.zero, some e) := by
      unfold runAction
      simp [hbody, h1]
    have hact2 : runAction env2 cfg s = (s,
        ⟨1, if cfg.requestTimeout = 0 then 0 else 1,
          if cfg.requestTimeout = 0 then 0 else 1⟩, some e) := by
      rw [runAction_no_rewind env2 cfg s (Or.inr h2),
        runTransport_fail env2 cfg s e none h3]
      rw [show ({ s with resp := Option.map (fun r => (⟨r, false, false⟩ : Resp)) none }
          : LoopState) = s from by cases s; simp_all]
    rw [retryDo, retryDo, hdone]
    by_cases hd : env2.ctxDone s.attempt
    · simp [hd]
    · simp only [hd, Bool.false_eq_true, if_false]
      simp only [hact1, hact2]
      by_cases hsr : shouldRetry strategies (s.attempt + 1) e
      · have hcong := retryDo_env_congr env1 env2 cfg strategies fuel
          { s with attempt := s.attempt + 1, lastErr := some e }
          (fun j hj => hagree j (by simp at hj; omega))
        simp [hsr, hcong]
      · simp [hsr]

/-- Witness for C5 at a concrete input. -/
theorem C5_witness :
    envRewindOnceFail.rewind 0 = some (Err.base 3)
    ∧ envSeekAsTransport.rewind 0 = none
    ∧ envSeekAsTransport.transport 0 = TransportOutcome.fail (Err.base 3) none
    ∧ (retryDo envRewindOnceFail ⟨true, 0⟩ [Strategy.Limit 2] 5 ⟨0, none, none⟩).2.2
        = (retryDo envSeekAsTransport ⟨true, 0⟩ [Strategy.Limit 2] 5 ⟨0, none, none⟩).2.2 := by
  refine ⟨rfl, rfl, rfl, ?_⟩
  have hagree : ∀ j, (⟨0, none, none⟩ : LoopState).attempt < j →
      envRewindOnceFail.rewind j = envSeekAsTransport.rewind j
      ∧ envRewindOnceFail.transport j = envSeekAsTransport.transport j
      ∧ envRewindOnceFail.ctxDone j = envSeekAsTransport.ctxDone j := by
    intro j hj
    have hj0 : j ≠ 0 := by simp at hj; omega
    refine ⟨?_, ?_, rfl⟩ <;> simp [envRewindOnceFail, envSeekAsTransport, hj0]
  exact (C5_rewind_error_uniform envRewindOnceFail envSeekAsTransport ⟨true, 0⟩
    [Strategy.Limit 2] 5 ⟨0, none, none⟩ (Err.base 3) rfl rfl rfl rfl rfl rfl hagree).2

/-- Claim C6 counterexample: the wrapper has no once-guard — closing a
successful response's body twice invokes the attempt's cancel function
twice, not exactly once. -/
theorem C6_counterexample :
    (Do (New []) ⟨false⟩ [ClientOption.WithRetryPolicy 100 1 []] envOk 2).resp
      = some ⟨⟨204, 5⟩, true, true⟩
    ∧ (respBodyCloseN 2 (initBody ⟨⟨204, 5⟩, true, true⟩)).cancelCalls = 2
    ∧ (respBodyCloseN 2 (initBody ⟨⟨204, 5⟩, true, true⟩)).cancelCalls ≠ 1 := by
  refine ⟨?_, ?_, ?_⟩ <;> decide

/-- Claim C6 (amended): for every successful response whose attempt had a
non-zero per-attempt timeout, the wrapper holds the attempt's cancel
function and invokes it exactly once per `Close` call — hence exactly
once when the caller closes the body exactly once; further `Close` calls
invoke it again (harmless, since cancelling a context is idempotent). -/
theorem C6_cancel_once_per_close (clientOpts callOpts : List ClientOption) (req : Req)
    (env : Env) (fuel : Nat) (resp : Resp)
    (hresp : (Do (New clientOpts) req callOpts env fuel).resp = some resp)
    (ht : (policyOf (mergedOptions (New clientOpts) callOpts).1).requestTimeout ≠ 0) :
    resp.hasCancel = true
    ∧ (respBodyCloseN 1 (initBody resp)).cancelCalls = 1
    ∧ ∀ m, (respBodyCloseN m (initBody resp)).cancelCalls = m := by
  have hshape := Do_resp_shape (New clientOpts) req callOpts env fuel resp hresp
  have hc : resp.hasCancel = true := by
    rw [hshape.2]
    simpa using ht
  have hm : ∀ m, (respBodyCloseN m (initBody resp)).cancelCalls = m := by
    intro m
    have hspec := respBodyCloseN_spec m (initBody resp)
    rw [hspec.2.1]
    simp [initBody, hc]
  exact ⟨hc, hm 1, hm⟩

/-- Witness for C6 at a concrete input. -/
theorem C6_witness :
    (Do (New []) ⟨false⟩ [ClientOption.WithRetryPolicy 100 1 []] envOk 2).resp
      = some ⟨⟨204, 5⟩, true, true⟩
    ∧ (policyOf (mergedOptions (New [])
        [ClientOption.WithRetryPolicy 100 1 []]).1).requestTimeout ≠ 0
    ∧ (respBodyCloseN 3 (initBody ⟨⟨204, 5⟩, true, true⟩)).cancelCalls = 3 := by
  refine ⟨by decide, by decide, ?_⟩
  exact (C6_cancel_once_per_close [] [ClientOption.WithRetryPolicy 100 1 []] ⟨false⟩
    envOk 2 ⟨⟨204, 5⟩, true, true⟩ (by decide) (by decide)).2.2 3

/-- Claim C7: under a retry policy whose `requestTimeout` is zero, no
derived timeout context is ever created (the attempt context is the
parent context unchanged) and the associated cancel is a no-op: no
per-attempt cancel is invoked, a successful response's wrapper carries no
cancel function, and closing the body any number of times never invokes a
cancel and only closes the underlying body, once per `Close`. -/
theorem C7_zero_timeout_noop_cancel (c : Client) (req : Req)
    (callOpts : List ClientOption) (env : Env) (fuel : Nat)
    (ht : (policyOf (mergedOptions c callOpts).1).requestTimeout = 0) :
    (Do c req callOpts env fuel).timeoutCtxCreated = 0
    ∧ (Do c req callOpts env fuel).attemptCancels = 0
    ∧ ∀ resp, (Do c req callOpts env fuel).resp = some resp →
        resp.hasCancel = false
        ∧ ∀ m, (respBodyCloseN m (initBody resp)).cancelCalls = 0
            ∧ (respBodyCloseN m (initBody resp)).innerCloseCalls = m := by
  have heff := Do_timeout_zero_effects c req callOpts env fuel ht
  refine ⟨heff.1, heff.2, ?_⟩
  intro resp hresp
  have hshape := Do_resp_shape c req callOpts env fuel resp hresp
  have hc : resp.hasCancel = false := by
    rw [hshape.2, ht]
    rfl
  refine ⟨hc, ?_⟩
  intro m
  have hspec := respBodyCloseN_spec m (initBody resp)
  constructor
  · rw [hspec.2.1]
    simp [initBody, hc]
  · rw [hspec.2.2]
    simp [initBody]

/-- Witness for C7 at a concrete input. -/
theorem C7_witness :
    (policyOf (mergedOptions (New [])
        [ClientOption.WithRetryPolicy 0 1 []]).1).requestTimeout = 0
    ∧ (Do (New []) ⟨false⟩ [ClientOption.WithRetryPolicy 0 1 []] envOk 2).timeoutCtxCreated
        = 0
    ∧ (respBodyCloseN 2 (initBody ⟨⟨204, 5⟩, true, false⟩)).cancelCalls = 0 := by
  have h := C7_zero_timeout_noop_cancel (New []) ⟨false⟩
    [ClientOption.WithRetryPolicy 0 1 []] envOk 2 (by decide)
  exact ⟨by decide, h.1, ((h.2.2 ⟨⟨204, 5⟩, true, false⟩ (by decide)).2 2).1⟩

/-- Claim C8: when the merged tracing configuration has tracing enabled
with carrier injection requested and the tracer's `Inject` fails, `Do`
returns that error wrapped with a nil response and performs zero
transport invocations. -/
theorem C8_inject_error_fails_call (c : Client) (req : Req)
    (callOpts : List ClientOption) (env : Env) (fuel : Nat)
    (t0 : TracingOptions) (e : Err)
    (hto : getTO (mergedOptions c callOpts).1 (mergedOptions c callOpts).2 = some t0)
    (hen : t0.enabled = true)
    (hic : t0.injectCarrier = true)
    (hinj : env.inject = some e)
    (hbp : req.hasBody = false ∨ env.bodyPrep = none) :
    (Do c req callOpts env fuel).err
        = some (Err.wrap "error starting and injecting tracing span" e)
    ∧ (Do c req callOpts env fuel).resp = none
    ∧ (Do c req callOpts env fuel).transportCalls = 0 := by
  have hspo : (startAndInjectSpan env
      (getTO (mergedOptions c callOpts).1 (mergedOptions c callOpts).2)
      (mergedOptions c callOpts).1.operationName).err = some e := by
    rw [hto]
    unfold startAndInjectSpan
    simp [hen, hic, hinj]
  rw [Do_eq_doMain c req callOpts env fuel hbp]
  have h := doMain_spanErr (mergedOptions c callOpts).1 (mergedOptions c callOpts).2
    req.hasBody env fuel e hspo
  exact ⟨h.1, h.2.1, h.2.2.1⟩

/-- Witness for C8 at a concrete input. -/
theorem C8_witness :
    getTO (mergedOptions (New [ClientOption.WithTracingOptions true "x" []])
        [ClientOption.WithSpanCarrierInjected]).1
      (mergedOptions (New [ClientOption.WithTracingOptions true "x" []])
        [ClientOption.WithSpanCarrierInjected]).2 = some ⟨true, true, []⟩
    ∧ envInjectFail.inject = some (Err.base 9)
    ∧ (Do (New [ClientOption.WithTracingOptions true "x" []]) ⟨false⟩
        [ClientOption.WithSpanCarrierInjected] envInjectFail 11).err
      = some (Err.wrap "error starting and injecting tracing span" (Err.base 9))
    ∧ (Do (New [ClientOption.WithTracingOptions true "x" []]) ⟨false⟩
        [ClientOption.WithSpanCarrierInjected] envInjectFail 11).transportCalls = 0 := by
  have h := C8_inject_error_fails_call (New [ClientOption.WithTracingOptions true "x" []])
    ⟨false⟩ [ClientOption.WithSpanCarrierInjected] envInjectFail 11
    ⟨true, true, []⟩ (Err.base 9) (by decide) rfl rfl rfl (Or.inl rfl)
  exact ⟨by decide, rfl, h.1, h.2.2⟩

/-- Claim C9: every retry policy the system installs contains a
maximum-attempt-count strategy: `WithRetryPolicy` always prepends
`strategy.Limit(maxRetries)` to the caller's strategies; when no retry
policy option is supplied to `New` it installs the standard policy
(5-second request timeout, `Limit(10)`, and the exponential
backoff-with-jitter strategy); and the merged policy of every call is
headed by a `Limit` strategy. -/
theorem C9_limit_always_present :
    (∀ t n ss (o : Options) (h : Heap),
        (applyOption (ClientOption.WithRetryPolicy t n ss) o h).1.retryPolicy
          = some ⟨t, Strategy.Limit n :: ss⟩)
    ∧ (∀ opts, noRetryOpt opts = true →
        (New opts).options.retryPolicy
          = some ⟨defaultReqTimeout, [Strategy.Limit defaultMaxRetries,
              StandardBackOffStrategy stdBackOffExponentialFactor]⟩)
    ∧ (∀ clientOpts callOpts, ∃ n rest,
        (policyOf (mergedOptions (New clientOpts) callOpts).1).retryStrategies
          = Strategy.Limit n :: rest) := by
  refine ⟨fun t n ss o h => rfl, ?_, ?_⟩
  · intro opts hno
    unfold New
    have hnone : (applyOptions opts emptyOptions { tracing := [] }).1.retryPolicy
        = none :=
      applyOptions_noretry_policy opts emptyOptions { tracing := [] } hno
    simp only [hnone]
    rfl
  · intro clientOpts callOpts
    rcases merged_limitHeaded clientOpts callOpts with ⟨t, n, rest, hp⟩
    refine ⟨n, rest, ?_⟩
    unfold policyOf
    rw [hp]
    rfl

/-- Witness for C9 at a concrete input. -/
theorem C9_witness :
    noRetryOpt [ClientOption.WithSpanCarrierInjected] = true
    ∧ (New [ClientOption.WithSpanCarrierInjected]).options.retryPolicy
      = some ⟨defaultReqTimeout, [Strategy.Limit defaultMaxRetries,
          StandardBackOffStrategy stdBackOffExponentialFactor]⟩ :=
  ⟨by decide, C9_limit_always_present.2.1 [ClientOption.WithSpanCarrierInjected] (by decide)⟩

/-- Claim C10: when `WithSpanCarrierInjected` is supplied but tracing was
never enabled by a `WithTracingOptions(true, ...)` at construction or per
call, `Do` starts no span, injects no carrier headers, and leaves the
request context untouched: the `injectCarrier` flag alone leaves
`enabled` false and span setup is a no-op. -/
theorem C10_carrier_without_enable (clientOpts callOpts : List ClientOption)
    (req : Req) (env : Env) (fuel : Nat)
    (hc : noEnableTracing clientOpts = true)
    (hd : noEnableTracing callOpts = true)
    (_hsup : ClientOption.WithSpanCarrierInjected ∈ callOpts) :
    (Do (New clientOpts) req callOpts env fuel).spanStarted = false
    ∧ (Do (New clientOpts) req callOpts env fuel).injected = false
    ∧ (Do (New clientOpts) req callOpts env fuel).ctxReplaced = false := by
  have hdis : allDisabled (mergedOptions (New clientOpts) callOpts).2 = true :=
    applyOptions_allDisabled callOpts (New clientOpts).options (New clientOpts).heap
      hd (New_allDisabled clientOpts hc)
  have hspo := startAndInjectSpan_disabled env
    (getTO (mergedOptions (New clientOpts) callOpts).1
      (mergedOptions (New clientOpts) callOpts).2)
    (mergedOptions (New clientOpts) callOpts).1.operationName
    (getTO_disabled (mergedOptions (New clientOpts) callOpts).1
      (mergedOptions (New clientOpts) callOpts).2 hdis)
  cases hb : req.hasBody with
  | true =>
    cases hbpe : env.bodyPrep with
    | some e =>
      rw [Do_bodyPrep_err (New clientOpts) req callOpts env fuel e hb hbpe]
      exact ⟨rfl, rfl, rfl⟩
    | none =>
      rw [Do_eq_doMain (New clientOpts) req callOpts env fuel (Or.inr hbpe)]
      have heff := doMain_effects (mergedOptions (New clientOpts) callOpts).1
        (mergedOptions (New clientOpts) callOpts).2 req.hasBody env fuel
        (by rw [hspo])
      rw [heff.2.1, heff.2.2.1, heff.2.2.2, hspo]
      exact ⟨rfl, rfl, rfl⟩
  | false =>
    rw [Do_eq_doMain (New clientOpts) req callOpts env fuel (Or.inl hb)]
    have heff := doMain_effects (mergedOptions (New clientOpts) callOpts).1
      (mergedOptions (New clientOpts) callOpts).2 req.hasBody env fuel
      (by rw [hspo])
    rw [heff.2.1, heff.2.2.1, heff.2.2.2, hspo]
    exact ⟨rfl, rfl, rfl⟩

/-- Witness for C10 at a concrete input. -/
theorem C10_witness :
    noEnableTracing ([] : List ClientOption) = true
    ∧ noEnableTracing [ClientOption.WithSpanCarrierInjected] = true
    ∧ ClientOption.WithSpanCarrierInjected ∈ [ClientOption.WithSpanCarrierInjected]
    ∧ (Do (New []) ⟨false⟩ [ClientOption.WithSpanCarrierInjected] envOk 11).spanStarted
        = false
    ∧ (Do (New []) ⟨false⟩ [ClientOption.WithSpanCarrierInjected] envOk 11).injected
        = false := by
  have h := C10_carrier_without_enable [] [ClientOption.WithSpanCarrierInjected]
    ⟨false⟩ envOk 11 (by decide) (by decide) (List.Mem.head _)
  exact ⟨by decide, by decide, List.Mem.head _, h.1, h.2.1⟩

end HttpClient
